import Mathlib

/-!
Verification development for `EIC_gen.py` (LipidMatch Flow, EICgen component).

The Python program converts mzXML scan files in a target directory to CSV,
loads all converted CSVs into one consolidated pandas dataframe, reads a
feature list from a target CSV file, and for each feature emits the scan
records whose m/z lies strictly within a tolerance window, tagged with a
retention-time ("zoom") flag.

Shallow embedding conventions:
* Python float64 values are modelled as exact rationals (`ℚ`); the program
  only reads, compares (`<`, `>`) and copies them, so the order structure is
  what matters.
* File paths and CSV cells are `String`s; `str.split('.')` is
  `String.splitOn "."`.
* The thread pool of `convert_all_mzXML_to_CSV` swallows worker exceptions
  (`executor.submit` with no `result()` call), so the scheduler's return
  value is independent of conversion outcomes; the filesystem after the
  conversion phase is passed to the read phase as an explicit map
  `disk : String → Option (List RawRow)`.
* `asyncio` task interleaving in `run` is modelled by an arbitrary
  scheduling function `sched` applied to the feature list; each
  `write_feature_rows` task is atomic (its body has no internal await
  point), so a schedule is a permutation of the feature list.
-/

namespace EICgen

/-- A parsed row of the target feature file (Python dataclass `Feature`). -/
structure Feature where
  mz : ℚ
  RT : ℚ
  feature_id : String
deriving DecidableEq, Repr

/-- One scan record of the consolidated store `self.dfs`: columns `mz`, `rt`,
`intensity` from a converted CSV, plus the `File` column attached by
`read_csv` (basename of the originating CSV). -/
structure ScanRecord where
  mz : ℚ
  rt : ℚ
  intensity : ℚ
  File : String
deriving DecidableEq, Repr

/-- A cell of the output CSV: the emitted rows mix strings (`Feature`,
`File`, `Zoom`) and floats (`rt`, `intensity`, `mz`). -/
inductive Cell where
  | str (s : String)
  | num (q : ℚ)
deriving DecidableEq, Repr

/-- A line of the output CSV. -/
abbrev Line := List Cell

/-- A raw data row of a converted CSV on disk: `(mz, rt, intensity)`. -/
abbrev RawRow := ℚ × ℚ × ℚ

/-- The configuration after `EICgen.__init__` translated the 1-based column
arguments to 0-based indices (`kwargs['mz_column'] - 1` etc.). -/
structure Config where
  mz_col : Int
  RT_col : Int
  feature_id_col : Int
  tolerance : ℚ
  zoom_window : ℚ
deriving Repr

/-- Python list indexing `row[i]` on a list of strings: non-negative indices
from the front, negative indices from the back, out of range is an
`IndexError` (`none`). -/
def pyGet (row : List String) (i : Int) : Option String :=
  if 0 ≤ i then row.get? i.toNat
  else if 0 ≤ (row.length : Int) + i then row.get? ((row.length : Int) + i).toNat
  else none

/-- Python `str.split(sep)` for a one-character separator, computed on the
character list of the string. -/
def splitChar (sep : Char) (s : String) : List String :=
  (s.data.splitOn sep).map String.mk

/-- `path.split('.')`, as used for both extension testing and output-path
derivation. -/
def splitDot (s : String) : List String := splitChar '.' s

/-- `f.split('.')[-1] == 'mzXML'`: the membership test building
`self.mzXML_files` from `self.dir_files`. -/
def isMzXML (f : String) : Bool := (splitDot f).getLast? == some "mzXML"

/-- `out = mzXML_file.split('.')[0] + '.csv'`: the converted-file path the
scheduler derives — everything from the first `.` of the path onward is
replaced by `.csv`. -/
def derivedCSV (f : String) : String := ((splitDot f).headD "") ++ ".csv"

/-- `os.path.basename`, for the `File` provenance column. -/
def basename (f : String) : String := ((splitChar '/' f).getLast?).getD f

/-- The natural number denoted by a digit character list. -/
def natVal (cs : List Char) : Nat :=
  cs.foldl (fun n c => 10 * n + (c.toNat - '0'.toNat)) 0

/-- The magnitude of a plain decimal literal, the shape of the numeric
cells `EICgen.features` reads: digits with at most one decimal point (at
least one digit overall).  Any other character list — the `ValueError`
case — is `none`. -/
def pyFloatMag (cs : List Char) : Option ℚ :=
  match cs.splitOn '.' with
  | [ip] =>
    if ip.isEmpty || !ip.all Char.isDigit then none
    else some (natVal ip : ℚ)
  | [ip, fp] =>
    if (ip.isEmpty && fp.isEmpty) || !(ip ++ fp).all Char.isDigit then none
    else some ((natVal (ip ++ fp) : ℚ) / (10 ^ fp.length))
  | _ => none

/-- Python `float(s)` restricted to plain decimal literals: an optional
sign, then the magnitude parsed by `pyFloatMag`. -/
def pyFloat (s : String) : Option ℚ :=
  match s.data with
  | '-' :: cs => (pyFloatMag cs).map Neg.neg
  | '+' :: cs => pyFloatMag cs
  | cs => pyFloatMag cs

/-- Modelled from the spec: the converted-path rule as the spec words it
("same stem, tabular extension"): the final extension of the file name is
replaced by `csv`.  Used only to compare the spec's rule with the code's
`derivedCSV`. -/
def specStemCSV (f : String) : String :=
  let parts := splitDot f
  if parts.length ≤ 1 then f ++ ".csv"
  else String.intercalate "." (parts.dropLast ++ ["csv"])

/-- `EICgen.convert_all_mzXML_to_CSV`: walk `mzXML_files`, append the derived
csv path to the result unconditionally, and submit a conversion job exactly
when the derived path is not in the directory listing `dir_files` taken at
init.  Returns `(mzCSV_files, dispatched)` where `dispatched` is the list of
mzXML files submitted to the pool.  Worker exceptions are swallowed by the
pool, so the returned value does not depend on conversion outcomes. -/
def convert_all_mzXML_to_CSV (dir_files : List String) :
    List String → List String × List String
  | [] => ([], [])
  | x :: xs =>
    let out := derivedCSV x
    let rest := convert_all_mzXML_to_CSV dir_files xs
    if out ∈ dir_files then (out :: rest.1, rest.2)
    else (out :: rest.1, x :: rest.2)

/-- `EICgen.read_csv`: `pandas.read_csv` on one converted file (a missing
file raises `FileNotFoundError`), then attach `File = basename(csv_file)` to
every row. -/
def read_csv (disk : String → Option (List RawRow)) (f : String) :
    Except String (List ScanRecord) :=
  match disk f with
  | none => .error ("FileNotFoundError: " ++ f)
  | some rows => .ok (rows.map fun r => ⟨r.1, r.2.1, r.2.2, basename f⟩)

/-- `EICgen.read_mzCSV_files`: read every file of `mzCSV_files` and
concatenate the batches (`pandas.concat`); the first read failure
propagates out of `executor.map` and aborts the build. -/
def read_mzCSV_files (disk : String → Option (List RawRow))
    (mzCSV_files : List String) : Except String (List ScanRecord) :=
  (mzCSV_files.mapM (read_csv disk)).map List.flatten

/-- Parse one data row of the target file as `EICgen.features` does:
`float(row[mz_col])`, `float(row[RT_col])`, `row[feature_id_col]`; a
non-numeric value raises `ValueError`, a bad index raises `IndexError`. -/
def parseFeatureRow (cfg : Config) (row : List String) :
    Except String Feature :=
  match pyGet row cfg.mz_col with
  | none => .error "IndexError"
  | some mzs =>
    match pyFloat mzs with
    | none => .error ("ValueError: could not convert string to float: " ++ mzs)
    | some mz =>
      match pyGet row cfg.RT_col with
      | none => .error "IndexError"
      | some rts =>
        match pyFloat rts with
        | none => .error ("ValueError: could not convert string to float: " ++ rts)
        | some rt =>
          match pyGet row cfg.feature_id_col with
          | none => .error "IndexError"
          | some fid => .ok ⟨mz, rt, fid⟩

/-- `EICgen.features`: skip the header row (`next(reader)`), then parse each
remaining row into a `Feature`.  The generator is consumed in full by the
list comprehension in `run`, so a parse failure on any row surfaces before
any extraction task executes. -/
def features (cfg : Config) (targetRows : List (List String)) :
    Except String (List Feature) :=
  match targetRows with
  | [] => .error "StopIteration"
  | _ :: rest => rest.mapM (parseFeatureRow cfg)

/-- The m/z tolerance mask of `get_feature_rows`:
`(self.dfs.mz < F.mz + self.tolerance) & (self.dfs.mz > F.mz - self.tolerance)`. -/
def mzMatch (tol : ℚ) (F : Feature) (r : ScanRecord) : Bool :=
  (r.mz < F.mz + tol) && (r.mz > F.mz - tol)

/-- The zoom flag a matching record receives: `'TRUE'` where
`rt.lt(F.RT + zoom) ∧ rt.gt(F.RT - zoom)` (the `df.loc[...] = 'TRUE'`
assignment), `'FALSE'` everywhere else (the `fillna('FALSE')`). -/
def zoomFlag (zw : ℚ) (F : Feature) (rt : ℚ) : String :=
  if rt < F.RT + zw ∧ rt > F.RT - zw then "TRUE" else "FALSE"

/-- The output row built from one matching record, in the projected column
order `df[['Feature', 'rt', 'intensity', 'mz', 'File', 'Zoom']]`. -/
def rowOf (zw : ℚ) (F : Feature) (r : ScanRecord) : Line :=
  [.str F.feature_id, .num r.rt, .num r.intensity, .num r.mz, .str r.File,
   .str (zoomFlag zw F r.rt)]

/-- `EICgen.get_feature_rows`: boolean-mask filter of the store on the m/z
window (pandas boolean indexing returns a copy `df` of the matching rows),
early return `[]` when nothing matches, then — on the copy — set the
`Feature` column, set `Zoom` to `'TRUE'` inside the zoom window and
`'FALSE'` elsewhere, and project the six output columns. -/
def get_feature_rows (dfs : List ScanRecord) (tol zw : ℚ) (F : Feature) :
    List Line :=
  let df := dfs.filter (mzMatch tol F)
  if df.isEmpty then []
  else df.map (rowOf zw F)

/-- State-passing view of `get_feature_rows`: the per-feature mutations
(`df['Feature'] = …`, `df.loc[mask, 'Zoom'] = 'TRUE'`, `fillna(inplace)`)
act on the boolean-indexed copy `df`, never on the shared `self.dfs`, so the
store threads through unchanged. -/
def get_feature_rows_st (dfs : List ScanRecord) (tol zw : ℚ) (F : Feature) :
    List ScanRecord × List Line :=
  (dfs, get_feature_rows dfs tol zw F)

/-- Sequential composition of extraction tasks over the shared store,
accumulating the emitted rows. -/
def extractMany (dfs : List ScanRecord) (tol zw : ℚ) (fs : List Feature) :
    List ScanRecord × List Line :=
  fs.foldl
    (fun acc f =>
      let p := get_feature_rows_st acc.1 tol zw f
      (p.1, acc.2 ++ p.2))
    (dfs, [])

/-- The fixed header row `['Feature', 'RT', 'Intensity', 'mz', 'File',
'Zoom']` written by `run` before any task is launched. -/
def headerLine : Line :=
  [.str "Feature", .str "RT", .str "Intensity", .str "mz", .str "File",
   .str "Zoom"]

/-- The result of `EICgen.run`: the lines written to the output file by the
time the run ends, and the exception it ended with, if any. -/
structure RunResult where
  lines : List Line
  err : Option String
deriving Repr

/-- `EICgen.run`: write the header row; build the list
`[write_feature_rows(f) for f in self.features()]` (this consumes the
generator, so a `features` failure aborts here, after the header and before
any data row); `asyncio.wait` on an empty task list raises `ValueError`;
otherwise every task runs atomically (no await point splits filtering from
`writer.writerows`), writing its feature's rows as one contiguous block, in
the interleaving order `sched fs` chosen by the event loop. -/
def run (cfg : Config) (targetRows : List (List String))
    (dfs : List ScanRecord) (sched : List Feature → List Feature) :
    RunResult :=
  match features cfg targetRows with
  | .error e => ⟨[headerLine], some e⟩
  | .ok fs =>
    if fs.isEmpty then
      ⟨[headerLine], some "ValueError: Set of coroutines/Futures is empty."⟩
    else
      ⟨headerLine ::
        (sched fs).flatMap (get_feature_rows dfs cfg.tolerance cfg.zoom_window),
       none⟩

end EICgen

namespace EICgen

/-! ### Helper lemmas -/

/-- `get_feature_rows` is the filter-then-project pipeline: the early-return
branch for an empty match set coincides with mapping over the empty list. -/
theorem get_feature_rows_eq (dfs : List ScanRecord) (tol zw : ℚ) (F : Feature) :
    get_feature_rows dfs tol zw F =
      (dfs.filter (mzMatch tol F)).map (rowOf zw F) := by
  unfold get_feature_rows
  by_cases h : (dfs.filter (mzMatch tol F)).isEmpty
  · rw [List.isEmpty_iff] at h
    simp [h]
  · simp [h]

/-- Two records emitting the same output row for the same feature are equal:
all four `ScanRecord` fields appear in the row. -/
theorem rowOf_inj (zw : ℚ) (F : Feature) {r₁ r₂ : ScanRecord}
    (h : rowOf zw F r₁ = rowOf zw F r₂) : r₁ = r₂ := by
  simp only [rowOf, List.cons.injEq, Cell.num.injEq, Cell.str.injEq,
    and_true] at h
  obtain ⟨-, h1, h2, h3, h4, -⟩ := h
  cases r₁; cases r₂; simp_all

/-- A failing element makes the whole `Except` traversal fail. -/
theorem mapM_except_error {α β : Type} (p : α → Except String β)
    (l : List α) (x : α) (hx : x ∈ l) (e : String) (he : p x = .error e) :
    ∃ ea, l.mapM p = .error ea := by
  induction l with
  | nil => cases hx
  | cons a as ih =>
    rw [List.mapM_cons]
    rcases List.mem_cons.mp hx with rfl | hmem
    · exact ⟨e, by rw [he]; rfl⟩
    · cases ha : p a with
      | error eb => exact ⟨eb, rfl⟩
      | ok b =>
        obtain ⟨ec, h'⟩ := ih hmem
        exact ⟨ec, by rw [h']; rfl⟩

/-- The scheduler's returned csv list is the derived path of every mzXML
file, in order, regardless of whether a conversion was dispatched. -/
theorem convert_all_fst (dir_files ms : List String) :
    (convert_all_mzXML_to_CSV dir_files ms).1 = ms.map derivedCSV := by
  induction ms with
  | nil => rfl
  | cons x xs ih =>
    by_cases h : derivedCSV x ∈ dir_files <;>
      simp [convert_all_mzXML_to_CSV, h, ih]

/-- The zoom flag written in the last column, restated with the bounds in
the spec's order. -/
theorem zoomFlag_eq (zw : ℚ) (F : Feature) (rt : ℚ) :
    zoomFlag zw F rt =
      if F.RT - zw < rt ∧ rt < F.RT + zw then "TRUE" else "FALSE" := by
  unfold zoomFlag
  exact if_congr ⟨fun h => ⟨h.2, h.1⟩, fun h => ⟨h.2, h.1⟩⟩ rfl rfl

/-- The dispatched jobs are exactly the mzXML files whose derived csv path
is missing from the startup directory listing. -/
theorem convert_all_snd (dir_files ms : List String) :
    (convert_all_mzXML_to_CSV dir_files ms).2 =
      ms.filter (fun x => !decide (derivedCSV x ∈ dir_files)) := by
  induction ms with
  | nil => rfl
  | cons x xs ih =>
    by_cases h : derivedCSV x ∈ dir_files <;>
      simp [convert_all_mzXML_to_CSV, h, ih]


/-! ### Claim theorems -/

/-- C1: Tolerance filter correctness: a record `r` of the store contributes
its output row to the extraction of feature `F` iff
`F.mz - tol < r.mz < F.mz + tol`, both bounds strict. -/
theorem tolerance_filter_correct (dfs : List ScanRecord) (tol zw : ℚ)
    (F : Feature) (r : ScanRecord) (hr : r ∈ dfs) :
    rowOf zw F r ∈ get_feature_rows dfs tol zw F ↔
      (F.mz - tol < r.mz ∧ r.mz < F.mz + tol) := by
  rw [get_feature_rows_eq]
  constructor
  · intro h
    obtain ⟨s, hs, heq⟩ := List.mem_map.mp h
    obtain rfl := rowOf_inj zw F heq
    have hm := (List.mem_filter.mp hs).2
    simp only [mzMatch, Bool.and_eq_true, decide_eq_true_eq, gt_iff_lt] at hm
    exact ⟨hm.2, hm.1⟩
  · intro h
    refine List.mem_map_of_mem _ (List.mem_filter.mpr ⟨hr, ?_⟩)
    simp only [mzMatch, Bool.and_eq_true, decide_eq_true_eq, gt_iff_lt]
    exact ⟨h.2, h.1⟩

/-- Witness for C1, on the spec's scenario: tolerance `0.005`, feature m/z
`100`; the record with m/z `100.0049` is included. -/
theorem tolerance_filter_correct_witness :
    rowOf 30 ⟨100, 50, "F1"⟩ ⟨1000049/10000, 55, 7, "a.csv"⟩ ∈
      get_feature_rows [⟨1000049/10000, 55, 7, "a.csv"⟩] (5/1000) 30
        ⟨100, 50, "F1"⟩ :=
  (tolerance_filter_correct [⟨1000049/10000, 55, 7, "a.csv"⟩] (5/1000) 30
    ⟨100, 50, "F1"⟩ ⟨1000049/10000, 55, 7, "a.csv"⟩ (by simp)).mpr
    (by norm_num)

/-- C2: Zoom tagging correctness: every emitted row comes from a store
record, and its last (`Zoom`) cell is the string `"TRUE"` exactly when the
record's retention time lies strictly within the zoom window around the
feature's retention time, `"FALSE"` otherwise. -/
theorem zoom_tagging_correct (dfs : List ScanRecord) (tol zw : ℚ)
    (F : Feature) (row : Line)
    (hrow : row ∈ get_feature_rows dfs tol zw F) :
    ∃ r ∈ dfs, row = rowOf zw F r ∧
      row.getLast? = some (.str
        (if F.RT - zw < r.rt ∧ r.rt < F.RT + zw then "TRUE" else "FALSE")) := by
  rw [get_feature_rows_eq] at hrow
  obtain ⟨r, hrf, rfl⟩ := List.mem_map.mp hrow
  refine ⟨r, (List.mem_filter.mp hrf).1, rfl, ?_⟩
  rw [← zoomFlag_eq]
  rfl

/-- Witness for C2: zoom half-width `30`, feature RT `50`, record RT `55`
(inside the window). -/
theorem zoom_tagging_correct_witness :
    ∃ r ∈ ([⟨100, 55, 7, "a.csv"⟩] : List ScanRecord),
      rowOf 30 ⟨100, 50, "F1"⟩ ⟨100, 55, 7, "a.csv"⟩ = rowOf 30 ⟨100, 50, "F1"⟩ r ∧
      (rowOf 30 ⟨100, 50, "F1"⟩ ⟨100, 55, 7, "a.csv"⟩).getLast? = some (.str
        (if (50 : ℚ) - 30 < r.rt ∧ r.rt < (50 : ℚ) + 30 then "TRUE" else "FALSE")) :=
  zoom_tagging_correct [⟨100, 55, 7, "a.csv"⟩] (5/1000) 30 ⟨100, 50, "F1"⟩
    (rowOf 30 ⟨100, 50, "F1"⟩ ⟨100, 55, 7, "a.csv"⟩)
    (by
      rw [get_feature_rows_eq]
      refine List.mem_map_of_mem _ (List.mem_filter.mpr ⟨by simp, ?_⟩)
      simp only [mzMatch, Bool.and_eq_true, decide_eq_true_eq, gt_iff_lt]
      norm_num)

/-- C6: No-match is not an error: a feature whose m/z window matches no
record of the store extracts the empty row list (and extraction is total —
there is no error case). -/
theorem no_match_yields_empty (dfs : List ScanRecord) (tol zw : ℚ)
    (F : Feature)
    (h : ∀ r ∈ dfs, ¬(F.mz - tol < r.mz ∧ r.mz < F.mz + tol)) :
    get_feature_rows dfs tol zw F = [] := by
  rw [get_feature_rows_eq]
  have hf : dfs.filter (mzMatch tol F) = [] := by
    rw [List.filter_eq_nil_iff]
    intro r hr
    have hn := h r hr
    simp only [mzMatch, Bool.and_eq_true, decide_eq_true_eq, gt_iff_lt, not_and]
    intro h1 h2
    exact hn ⟨h2, h1⟩
  rw [hf]
  rfl

/-- Witness for C6: a store whose only record (m/z `200`) is far outside
the feature's window yields no rows. -/
theorem no_match_yields_empty_witness :
    get_feature_rows [⟨200, 5, 7, "a.csv"⟩] (5/1000) 30 ⟨100, 50, "F1"⟩ = [] :=
  no_match_yields_empty [⟨200, 5, 7, "a.csv"⟩] (5/1000) 30 ⟨100, 50, "F1"⟩
    (by
      intro r hr
      simp only [List.mem_singleton] at hr
      subst hr
      rintro ⟨-, h2⟩
      have h3 : (200 : ℚ) < 100 + 5/1000 := h2
      norm_num at h3)

/-- C7: RecordStore immutability: running any sequence of extraction tasks
threads the store through unchanged, so every later extraction observes the
store exactly as built. -/
theorem store_immutable (dfs : List ScanRecord) (tol zw : ℚ)
    (fs : List Feature) :
    (extractMany dfs tol zw fs).1 = dfs ∧
      ∀ F, get_feature_rows_st (extractMany dfs tol zw fs).1 tol zw F =
        get_feature_rows_st dfs tol zw F := by
  have h : ∀ (l : List Feature) (acc : List ScanRecord × List Line),
      (l.foldl (fun acc f =>
        let p := get_feature_rows_st acc.1 tol zw f
        (p.1, acc.2 ++ p.2)) acc).1 = acc.1 := by
    intro l
    induction l with
    | nil => intro acc; rfl
    | cons f l ih => intro acc; rw [List.foldl_cons]; exact ih _
  constructor
  · exact h fs (dfs, [])
  · intro F
    rw [show (extractMany dfs tol zw fs).1 = dfs from h fs (dfs, [])]


/-- A successful, non-empty run: header line first, then each scheduled
feature's rows as one contiguous block, and no error. -/
theorem run_ok (cfg : Config) (targetRows : List (List String))
    (dfs : List ScanRecord) (sched : List Feature → List Feature)
    (fs : List Feature) (hf : features cfg targetRows = .ok fs)
    (hne : fs ≠ []) :
    run cfg targetRows dfs sched =
      ⟨headerLine :: (sched fs).flatMap
        (get_feature_rows dfs cfg.tolerance cfg.zoom_window), none⟩ := by
  have hemp : fs.isEmpty = false := by
    cases fs with
    | nil => exact absurd rfl hne
    | cons a l => rfl
  unfold run
  rw [hf]
  simp [hemp]

/-- C3 counterexample: a directory with the single raw file `/d/a.mzXML`
whose conversion fails (nothing is written to disk).  The claim says the
failed file's converted path is absent from the scheduler's result set and
the run continues; in fact `/d/a.csv` is in the result set, and the record
store build fails on the missing file. -/
theorem conversion_failure_counterexample :
    derivedCSV "/d/a.mzXML" ∈
      (convert_all_mzXML_to_CSV ["/d/a.mzXML"]
        (["/d/a.mzXML"].filter isMzXML)).1 ∧
    read_mzCSV_files (fun _ => none)
      (convert_all_mzXML_to_CSV ["/d/a.mzXML"]
        (["/d/a.mzXML"].filter isMzXML)).1 =
      .error "FileNotFoundError: /d/a.csv" := by
  exact ⟨by decide, rfl⟩

/-- C3 (amended): the scheduler never aborts and returns normally, but the
derived csv path of every mzXML file — a failed conversion included — is in
the returned result set; if the converted file is then missing on disk, the
record store build (`read_mzCSV_files`) fails, aborting the run. -/
theorem conversion_failure_amended (dir_files : List String) (x : String)
    (hx : x ∈ dir_files.filter isMzXML) :
    derivedCSV x ∈
      (convert_all_mzXML_to_CSV dir_files (dir_files.filter isMzXML)).1 ∧
    ∀ disk : String → Option (List RawRow), disk (derivedCSV x) = none →
      ∃ e, read_mzCSV_files disk
        (convert_all_mzXML_to_CSV dir_files (dir_files.filter isMzXML)).1 =
          .error e := by
  have hmem : derivedCSV x ∈
      (convert_all_mzXML_to_CSV dir_files (dir_files.filter isMzXML)).1 := by
    rw [convert_all_fst]
    exact List.mem_map_of_mem _ hx
  refine ⟨hmem, ?_⟩
  intro disk hd
  have herr : read_csv disk (derivedCSV x) =
      .error ("FileNotFoundError: " ++ derivedCSV x) := by
    unfold read_csv
    rw [hd]
  obtain ⟨ea, hm⟩ := mapM_except_error (read_csv disk) _ _ hmem _ herr
  refine ⟨ea, ?_⟩
  unfold read_mzCSV_files
  rw [hm]
  rfl

/-- Witness for C3 (amended), at the concrete directory `["/e/b.mzXML"]`
with an empty disk. -/
theorem conversion_failure_amended_witness :
    derivedCSV "/e/b.mzXML" ∈
      (convert_all_mzXML_to_CSV ["/e/b.mzXML"]
        (["/e/b.mzXML"].filter isMzXML)).1 ∧
    ∃ e, read_mzCSV_files (fun _ => none)
      (convert_all_mzXML_to_CSV ["/e/b.mzXML"]
        (["/e/b.mzXML"].filter isMzXML)).1 = .error e := by
  have h := conversion_failure_amended ["/e/b.mzXML"] "/e/b.mzXML" (by decide)
  exact ⟨h.1, h.2 (fun _ => none) rfl⟩

/-- C4 counterexample: for the raw file `/d/a.b.mzXML` the "same stem with
csv extension" path is `/d/a.b.csv`, but the scheduler derives `/d/a.csv`
(it truncates at the first dot of the whole path), and the same-stem path
never appears in the returned result set. -/
theorem idempotent_scheduling_counterexample :
    (convert_all_mzXML_to_CSV ["/d/a.b.mzXML"]
      (["/d/a.b.mzXML"].filter isMzXML)).1 = ["/d/a.csv"] ∧
    specStemCSV "/d/a.b.mzXML" = "/d/a.b.csv" ∧
    "/d/a.b.csv" ∉ (convert_all_mzXML_to_CSV ["/d/a.b.mzXML"]
      (["/d/a.b.mzXML"].filter isMzXML)).1 := by
  exact ⟨by decide, by decide, by decide⟩

/-- C4 (amended): the scheduler derives the converted path by truncating
the file's path at its first dot and appending `.csv` (`derivedCSV`; this
equals the same-stem rule only when the path contains exactly one dot);
the derived path is always included in the returned list, a file whose
derived path is in the startup directory listing is not dispatched, and if
every derived path is already listed — as after a completed first run — no
conversion at all is dispatched. -/
theorem idempotent_scheduling (dir_files : List String) :
    (∀ x ∈ dir_files.filter isMzXML, derivedCSV x ∈
      (convert_all_mzXML_to_CSV dir_files (dir_files.filter isMzXML)).1) ∧
    (∀ x ∈ dir_files.filter isMzXML, derivedCSV x ∈ dir_files →
      x ∉ (convert_all_mzXML_to_CSV dir_files (dir_files.filter isMzXML)).2) ∧
    ((∀ x ∈ dir_files.filter isMzXML, derivedCSV x ∈ dir_files) →
      (convert_all_mzXML_to_CSV dir_files (dir_files.filter isMzXML)).2 = []) := by
  refine ⟨?_, ?_, ?_⟩
  · intro x hx
    rw [convert_all_fst]
    exact List.mem_map_of_mem _ hx
  · intro x hx hin hmem
    rw [convert_all_snd] at hmem
    have hb := List.of_mem_filter hmem
    simp [hin] at hb
  · intro h
    rw [convert_all_snd, List.filter_eq_nil_iff]
    intro a ha
    simp [h a ha]

/-- Witness for C4: a directory already holding `/d/a.csv` next to
`/d/a.mzXML` dispatches no conversion work. -/
theorem idempotent_scheduling_witness :
    (convert_all_mzXML_to_CSV ["/d/a.mzXML", "/d/a.csv"]
      (["/d/a.mzXML", "/d/a.csv"].filter isMzXML)).2 = [] :=
  (idempotent_scheduling ["/d/a.mzXML", "/d/a.csv"]).2.2 (by decide)

/-- C5 counterexample: a target file whose first data row has the
non-numeric m/z value `"abc"` makes the run fail — but the header row has
already been written to the output, contradicting "aborts before any
output (including the header row) is written". -/
theorem config_error_counterexample :
    (run ⟨0, 1, 2, 5/1000, 30⟩ [["mz", "rt", "id"], ["abc", "1.5", "F1"]]
      [] (fun l => l)).err.isSome = true ∧
    (run ⟨0, 1, 2, 5/1000, 30⟩ [["mz", "rt", "id"], ["abc", "1.5", "F1"]]
      [] (fun l => l)).lines = [headerLine] := by
  exact ⟨rfl, rfl⟩

/-- C5 (amended): a non-numeric m/z or RT value in some data row of the
target file makes the run fail fatally before any data row is written; the
header row alone has been written, because `run` writes it before parsing
the feature file. -/
theorem config_error_amended (cfg : Config) (hd row : List String)
    (rest : List (List String)) (dfs : List ScanRecord)
    (sched : List Feature → List Feature)
    (hrow : row ∈ rest) (e : String)
    (he : parseFeatureRow cfg row = .error e) :
    (run cfg (hd :: rest) dfs sched).err.isSome = true ∧
    (run cfg (hd :: rest) dfs sched).lines = [headerLine] := by
  obtain ⟨ea, hm⟩ := mapM_except_error (parseFeatureRow cfg) rest row hrow e he
  have hf : features cfg (hd :: rest) = .error ea := hm
  unfold run
  rw [hf]
  exact ⟨rfl, rfl⟩

/-- Witness for C5 (amended): the data row `["7even", "2.0", "G1"]` has a
non-numeric m/z in column 0. -/
theorem config_error_amended_witness :
    (run ⟨0, 1, 2, 5/1000, 30⟩ [["mz", "rt", "id"], ["7even", "2.0", "G1"]]
      [] (fun l => l)).err.isSome = true ∧
    (run ⟨0, 1, 2, 5/1000, 30⟩ [["mz", "rt", "id"], ["7even", "2.0", "G1"]]
      [] (fun l => l)).lines = [headerLine] :=
  config_error_amended ⟨0, 1, 2, 5/1000, 30⟩ ["mz", "rt", "id"]
    ["7even", "2.0", "G1"] [["7even", "2.0", "G1"]] [] (fun l => l)
    (by simp) "ValueError: could not convert string to float: 7even" rfl

/-- C10: a target file holding only a header row parses to an empty feature
sequence, and `run` then raises (`asyncio.wait` on an empty task set is a
`ValueError`) instead of completing normally; only the header has been
written. -/
theorem empty_feature_set_errors (cfg : Config) (hd : List String)
    (dfs : List ScanRecord) (sched : List Feature → List Feature) :
    run cfg [hd] dfs sched =
      ⟨[headerLine], some "ValueError: Set of coroutines/Futures is empty."⟩ :=
  rfl


/-- C8: Output header and column order: the header row
`Feature, RT, Intensity, mz, File, Zoom` is always the first output line,
and every data row is built from a store record in the column order
`(feature_id, retention_time, intensity, mz, source_file, zoom_flag)`. -/
theorem output_header_and_columns (cfg : Config)
    (targetRows : List (List String)) (dfs : List ScanRecord)
    (sched : List Feature → List Feature) :
    (run cfg targetRows dfs sched).lines.head? = some headerLine ∧
    ∀ row ∈ (run cfg targetRows dfs sched).lines.tail, ∃ F r, r ∈ dfs ∧
      row = [.str F.feature_id, .num r.rt, .num r.intensity, .num r.mz,
             .str r.File, .str (zoomFlag cfg.zoom_window F r.rt)] := by
  unfold run
  cases hf : features cfg targetRows with
  | error e =>
    refine ⟨?_, ?_⟩ <;> simp
  | ok fs =>
    cases hemp : fs.isEmpty with
    | true =>
      refine ⟨?_, ?_⟩ <;> simp [hemp]
    | false =>
      simp only [hemp, Bool.false_eq_true, if_false, List.head?_cons,
        List.tail_cons]
      refine ⟨trivial, ?_⟩
      intro row h
      obtain ⟨F, hF, hrow⟩ := List.mem_flatMap.mp h
      rw [get_feature_rows_eq] at hrow
      obtain ⟨r, hrf, rfl⟩ := List.mem_map.mp hrow
      exact ⟨F, r, (List.mem_filter.mp hrf).1, rfl⟩

/-- C9: Row conservation and per-feature contiguity: for any scheduling
order that is a permutation of the parsed feature list, the data rows are
the concatenation of one contiguous per-feature block per scheduled
feature, and the total data-row count is the sum of the features'
independently computed match counts. -/
theorem row_conservation_and_contiguity (cfg : Config) (hd : List String)
    (rest : List (List String)) (dfs : List ScanRecord)
    (sched : List Feature → List Feature) (fs : List Feature)
    (hf : features cfg (hd :: rest) = .ok fs) (hne : fs ≠ [])
    (hperm : (sched fs).Perm fs) :
    (run cfg (hd :: rest) dfs sched).lines.tail =
      (sched fs).flatMap (get_feature_rows dfs cfg.tolerance cfg.zoom_window) ∧
    (run cfg (hd :: rest) dfs sched).lines.tail.length =
      (fs.map fun f =>
        (get_feature_rows dfs cfg.tolerance cfg.zoom_window f).length).sum := by
  rw [run_ok cfg (hd :: rest) dfs sched fs hf hne]
  refine ⟨rfl, ?_⟩
  simp only [List.tail_cons, List.length_flatMap]
  exact List.Perm.sum_eq (hperm.map _)

/-- Witness for C8: a one-feature run over a one-record store; the header
is the first line and the single data row has the required column order. -/
theorem output_header_and_columns_witness :
    (run ⟨0, 1, 2, 1, 30⟩ [["h", "h", "h"], ["100", "50", "F1"]]
      [⟨100, 50, 7, "a.csv"⟩] (fun l => l)).lines.head? = some headerLine ∧
    ∃ F r, r ∈ ([⟨100, 50, 7, "a.csv"⟩] : List ScanRecord) ∧
      rowOf 30 ⟨100, 50, "F1"⟩ ⟨100, 50, 7, "a.csv"⟩ =
        [.str F.feature_id, .num r.rt, .num r.intensity, .num r.mz,
         .str r.File, .str (zoomFlag 30 F r.rt)] := by
  have h := output_header_and_columns ⟨0, 1, 2, 1, 30⟩
    [["h", "h", "h"], ["100", "50", "F1"]] [⟨100, 50, 7, "a.csv"⟩]
    (fun l => l)
  refine ⟨h.1, h.2 _ ?_⟩
  have hm : mzMatch (1 : ℚ) ⟨100, 50, "F1"⟩ ⟨100, 50, 7, "a.csv"⟩ = true := by
    simp only [mzMatch, Bool.and_eq_true, decide_eq_true_eq, gt_iff_lt]
    norm_num
  have hrows : get_feature_rows [⟨100, 50, 7, "a.csv"⟩] 1 30 ⟨100, 50, "F1"⟩ =
      [rowOf 30 ⟨100, 50, "F1"⟩ ⟨100, 50, 7, "a.csv"⟩] := by
    rw [get_feature_rows_eq, List.filter_cons_of_pos hm]
    rfl
  have hr := run_ok ⟨0, 1, 2, 1, 30⟩ [["h", "h", "h"], ["100", "50", "F1"]]
    [⟨100, 50, 7, "a.csv"⟩] (fun l => l) [⟨100, 50, "F1"⟩] rfl (by simp)
  rw [hr]
  simp only [List.tail_cons, List.flatMap_cons, List.flatMap_nil]
  rw [hrows]
  simp

/-- Witness for C9: two features run in reversed schedule order over a
one-record store; the hypotheses (parsed feature list, non-emptiness,
permutation) hold concretely. -/
theorem row_conservation_witness :
    ((run ⟨0, 1, 2, 1, 30⟩
        [["h", "h", "h"], ["100", "50", "F1"], ["200", "60", "F2"]]
        [⟨100, 50, 7, "a.csv"⟩] List.reverse).lines.tail =
      (List.reverse ([⟨100, 50, "F1"⟩, ⟨200, 60, "F2"⟩] : List Feature)).flatMap
        (get_feature_rows [⟨100, 50, 7, "a.csv"⟩] 1 30)) ∧
    ((run ⟨0, 1, 2, 1, 30⟩
        [["h", "h", "h"], ["100", "50", "F1"], ["200", "60", "F2"]]
        [⟨100, 50, 7, "a.csv"⟩] List.reverse).lines.tail.length =
      (([⟨100, 50, "F1"⟩, ⟨200, 60, "F2"⟩] : List Feature).map fun f =>
        (get_feature_rows [⟨100, 50, 7, "a.csv"⟩] 1 30 f).length).sum) :=
  row_conservation_and_contiguity ⟨0, 1, 2, 1, 30⟩ ["h", "h", "h"]
    [["100", "50", "F1"], ["200", "60", "F2"]] [⟨100, 50, 7, "a.csv"⟩]
    List.reverse [⟨100, 50, "F1"⟩, ⟨200, 60, "F2"⟩] rfl (by simp)
    (List.reverse_perm _)

end EICgen
